import Mathlib

/-
Verification of the three modules of this repository against their
natural-language specification:

* `sage/game_theory/normal_form_game.py` (namespace `NFG`)
* `sage/schemes/toric/morphism.py`       (namespace `Toric`)
* `sage/manifolds/local_frame.py`        (namespace `Frames`)

Each Python class/function is shallowly embedded as an executable Lean
definition.  Machinery that lives outside the three source files
(the gambit solver, `sage.geometry.fan_morphism`, lattice/cone primitives)
is represented either by oracle parameters or, where the specification
describes it, by definitions marked `Modelled from the spec:`.
-/

namespace NFG

/-- A Sage integer matrix, modelled by its list of rows
(`matrix.rows()` in the source). -/
structure Mat where
  rows : List (List ℤ)
deriving DecidableEq

/-- Python truthiness of a Sage matrix: a matrix is falsy iff it is the
zero matrix.  This is the test performed by `if matrix1:` and
`if not matrix2:` in `NormalFormGame.__new__`/`__init__`. -/
def Mat.truthy (m : Mat) : Bool := m.rows.any (fun r => r.any (fun z => z ≠ 0))

/-- Truthiness of an optional matrix argument (`False` default → falsy). -/
def optTruthy : Option Mat → Bool
  | none => false
  | some m => m.truthy

/-- `len(matrix.columns())`. -/
def Mat.ncols (m : Mat) : ℕ := (m.rows.headD []).length

/-- `matrix[k]` for a strategy pair `k = (i, j)`. -/
def Mat.entry (m : Mat) (k : ℕ × ℕ) : ℤ := (m.rows.getD k.1 []).getD k.2 0

/-- `- matrix`. -/
def Mat.neg (m : Mat) : Mat := ⟨m.rows.map (fun r => r.map (fun z => -z))⟩

/-- The Python exceptions raised by the module. -/
inductive PyError where
  | valueError (msg : String)
  | attributeError (attr : String)
  | notImplementedError (msg : String)
deriving DecidableEq

/-- A gambit game table (the external `gambit.Game` that `NormalFormGame`
derives from): the per-player strategy counts fixed by `Game.new_table`,
the two stored payoff matrices, and the payoff cells
`self[k] = (payoff player 1, payoff player 2)` filled by `__init__`. -/
structure GambitGame where
  strategyCounts : List ℕ
  matrix1 : Option Mat := none
  matrix2 : Option Mat := none
  cells : List ((ℕ × ℕ) × (ℤ × ℤ)) := []
deriving DecidableEq

/-- The `elif game: ... else: g = Game.new_table([])` tail of `__new__`. -/
def newFallback : Option GambitGame → GambitGame
  | some g => g
  | none => { strategyCounts := [] }

/-- `NormalFormGame.__new__`.  Note that in the `if matrix1:` branch the
source evaluates `len(matrix2.rows())` unconditionally; when `matrix2`
was not supplied it is the Python literal `False`, which has no `rows`
attribute, so an `AttributeError` is raised. -/
def NormalFormGame_new (matrix1 matrix2 : Option Mat) (game : Option GambitGame) :
    Except PyError GambitGame :=
  if optTruthy matrix1 && game.isSome then
    .error (.valueError "Cant input both a matrix and a game.")
  else
    match matrix1, matrix2 with
    | some m1, some m2 =>
      if m1.truthy then .ok { strategyCounts := [m1.rows.length, m2.rows.length] }
      else .ok (newFallback game)
    | some m1, none =>
      if m1.truthy then .error (.attributeError "rows")
      else .ok (newFallback game)
    | none, _ => .ok (newFallback game)

/-- `NormalFormGame.__init__` acting on the game produced by `__new__`.
(`self.to_matrix()` in the falsy branch is a stub whose body is
`return`, so it changes nothing.) -/
def NormalFormGame_init (g : GambitGame) (matrix1 matrix2 : Option Mat) : GambitGame :=
  if !optTruthy matrix1 then g
  else
    match matrix1 with
    | none => g
    | some m1 =>
      let m2 := if optTruthy matrix2 then matrix2.getD m1.neg else m1.neg
      { g with
        matrix1 := some m1
        matrix2 := some m2
        cells := ((List.range m1.rows.length).product (List.range m1.ncols)).map
          (fun k => (k, (m1.entry k, m2.entry k))) }

/-- Construction of a `NormalFormGame`: Python runs `__new__` then
`__init__` on the same arguments. -/
def NormalFormGame_make (matrix1 matrix2 : Option Mat) (game : Option GambitGame) :
    Except PyError GambitGame :=
  match NormalFormGame_new matrix1 matrix2 game with
  | .error err => .error err
  | .ok g => .ok (NormalFormGame_init g matrix1 matrix2)

/-- The exact message of the more-than-two-players error in `obtain_Nash`
(the source concatenates four adjacent string literals). -/
def nashPlayersError : String :=
  "Nash equilibrium for games with more than 2 players have not been implemented yet.Please see the gambit website [LINK] that has a variety of available algorithms."

/-- `NormalFormGame.obtain_Nash`.  The external gambit solver
`ExternalLCPSolver().solve` and the installation state of the `lrs`
package are oracle parameters.  For `"lrs"` with the package installed,
and for `"support enumeration"`, the bodies are `pass`, so the function
falls through and returns `None`. -/
def obtain_Nash (g : GambitGame) (algorithm : String)
    (solve : GambitGame → List (List ℚ)) (lrsInstalled : Bool) :
    Except PyError (Option (List (List ℚ))) :=
  if algorithm = "LCP" then
    if g.strategyCounts.length > 2 then
      .error (.notImplementedError nashPlayersError)
    else
      .ok (some (solve g))
  else if algorithm = "lrs" then
    if !lrsInstalled then .error (.notImplementedError "lrs is not installed")
    else .ok none
  else .ok none

/-- C6: `obtain_Nash` with the default algorithm "LCP" raises
`NotImplementedError` when the game has more than 2 players, otherwise
returns exactly the equilibria computed by the external solver; with
algorithm "lrs" it raises `NotImplementedError` when the lrs package is
not installed. -/
theorem obtain_Nash_spec (g : GambitGame) (solve : GambitGame → List (List ℚ))
    (lrsInstalled : Bool) :
    (g.strategyCounts.length > 2 →
      obtain_Nash g "LCP" solve lrsInstalled =
        .error (.notImplementedError nashPlayersError)) ∧
    (g.strategyCounts.length ≤ 2 →
      obtain_Nash g "LCP" solve lrsInstalled = .ok (some (solve g))) ∧
    (lrsInstalled = false →
      obtain_Nash g "lrs" solve lrsInstalled =
        .error (.notImplementedError "lrs is not installed")) := by
  refine ⟨fun h => ?_, fun h => ?_, fun h => ?_⟩
  · simp [obtain_Nash, if_pos h]
  · simp [obtain_Nash, Nat.not_lt.mpr h]
  · simp [obtain_Nash, h]

/-- Witness for C6 at concrete games: a 3-player game errors, a 2-player
game returns the solver output, and "lrs" errors when lrs is absent. -/
theorem obtain_Nash_spec_witness :
    obtain_Nash ⟨[2, 2, 2], none, none, []⟩ "LCP" (fun _ => []) false =
      .error (.notImplementedError nashPlayersError) ∧
    obtain_Nash ⟨[2, 2], none, none, []⟩ "LCP" (fun _ => []) false =
      .ok (some []) ∧
    obtain_Nash ⟨[2, 2], none, none, []⟩ "lrs" (fun _ => []) false =
      .error (.notImplementedError "lrs is not installed") :=
  ⟨(obtain_Nash_spec ⟨[2, 2, 2], none, none, []⟩ (fun _ => []) false).1 (by decide),
   (obtain_Nash_spec ⟨[2, 2], none, none, []⟩ (fun _ => []) false).2.1 (by decide),
   (obtain_Nash_spec ⟨[2, 2], none, none, []⟩ (fun _ => []) false).2.2 rfl⟩

/-- C9: the code contradicts its own docstring.  Constructing
`NormalFormGame(matrix1=matrix([[1]]))` (only `matrix1` given) raises
`AttributeError` inside `__new__`, because `len(matrix2.rows())` is
evaluated while `matrix2` is the Python literal `False`; `matrix2` is
never set to `-matrix1` and no zero-sum game is created. -/
theorem normal_form_game_only_matrix1_crashes :
    NormalFormGame_make (some ⟨[[1]]⟩) none none = .error (.attributeError "rows") := rfl

end NFG

namespace Toric

/-- A lattice point / ray generator, by its list of coordinates. -/
abbrev RayV := List ℤ

/-- A rational polyhedral fan, by its list of ray generators (`fan.rays()`)
and its generating cones as lists of ray indices. -/
structure FanData where
  rays : List RayV
  cones : List (List ℕ)
deriving DecidableEq

/-- A toric variety, built combinatorially from its fan. -/
structure ToricVariety where
  fan : FanData
deriving DecidableEq

/-- `sage.geometry.fan_morphism.FanMorphism` as a value (that class lives
outside the three source files).  Modelled from the spec: a fan morphism is
the triple of an integer matrix, the domain fan and the codomain fan. -/
structure FanMorphism where
  matrix : List RayV
  domain_fan : FanData
  codomain_fan : FanData
deriving DecidableEq

/-- A toric morphism defined by a fan morphism
(`SchemeMorphism_fan_toric_variety`): the parent Hom-set contributes the
domain and codomain varieties; the fan morphism is stored as
`self._fan_morphism` and returned by the accessor `fan_morphism()`. -/
structure SchemeMorphism_fan_toric_variety where
  domain : ToricVariety
  codomain : ToricVariety
  fan_morphism : FanMorphism
deriving DecidableEq

/-- `SchemeMorphism_fan_toric_variety.__init__`: with `check` set, a
`ValueError` is raised when the fan of the domain (resp. codomain) variety
is not the domain (resp. codomain) fan of the fan morphism; otherwise the
fan morphism is stored unchanged. -/
def SchemeMorphism_fan_toric_variety_init (domain codomain : ToricVariety)
    (fm : FanMorphism) (check : Bool) :
    Except String SchemeMorphism_fan_toric_variety :=
  if check = true ∧ domain.fan ≠ fm.domain_fan then
    .error "The fan morphism domain must be the fan of the domain."
  else if check = true ∧ codomain.fan ≠ fm.codomain_fan then
    .error "The fan morphism codomain must be the fan of the codomain."
  else .ok ⟨domain, codomain, fm⟩

/-- C10: with `check=True`, the constructor of
`SchemeMorphism_fan_toric_variety` raises `ValueError` if and only if the
fan morphism's domain fan differs from the fan of the domain variety or its
codomain fan differs from the fan of the codomain variety; on success the
stored fan morphism is the one passed in, returned unchanged by
`fan_morphism()`. -/
theorem fan_toric_variety_init_spec (domain codomain : ToricVariety) (fm : FanMorphism) :
    ((∃ msg, SchemeMorphism_fan_toric_variety_init domain codomain fm true = .error msg) ↔
      (domain.fan ≠ fm.domain_fan ∨ codomain.fan ≠ fm.codomain_fan)) ∧
    (∀ m, SchemeMorphism_fan_toric_variety_init domain codomain fm true = .ok m →
      m.fan_morphism = fm) := by
  constructor
  · by_cases h1 : domain.fan = fm.domain_fan <;>
      by_cases h2 : codomain.fan = fm.codomain_fan <;>
        simp [SchemeMorphism_fan_toric_variety_init, h1, h2]
  · intro m hm
    by_cases h1 : domain.fan = fm.domain_fan <;>
      by_cases h2 : codomain.fan = fm.codomain_fan <;>
        simp_all [SchemeMorphism_fan_toric_variety_init] <;> simp [← hm]

/-- A one-dimensional fan used by the witness of C10 (the fan of the affine
line). -/
def a1Fan : FanData := ⟨[[1]], [[0]]⟩

/-- Witness for C10: the identity fan morphism on the affine line is accepted
by the checked constructor and stored unchanged. -/
theorem fan_toric_variety_init_spec_witness :
    (SchemeMorphism_fan_toric_variety.mk ⟨a1Fan⟩ ⟨a1Fan⟩ ⟨[[1]], a1Fan, a1Fan⟩).fan_morphism =
      ⟨[[1]], a1Fan, a1Fan⟩ :=
  (fan_toric_variety_init_spec ⟨a1Fan⟩ ⟨a1Fan⟩ ⟨[[1]], a1Fan, a1Fan⟩).2
    ⟨⟨a1Fan⟩, ⟨a1Fan⟩, ⟨[[1]], a1Fan, a1Fan⟩⟩ rfl

/-- Python 2 `cmp` on integer-valued mathematical objects. -/
def cmpInt (a b : ℤ) : ℤ := if a < b then -1 else if b < a then 1 else 0

/-- Python 2 `cmp` on natural numbers. -/
def cmpNat (a b : ℕ) : ℤ := cmpInt a b

/-- Python 2 `cmp` on lists: elementwise comparison, ties broken by length. -/
def cmpList (f : α → α → ℤ) : List α → List α → ℤ
  | [], [] => 0
  | [], _ :: _ => -1
  | _ :: _, [] => 1
  | x :: xs, y :: ys => if f x y = 0 then cmpList f xs ys else f x y

theorem cmpInt_eq_zero_iff (a b : ℤ) : cmpInt a b = 0 ↔ a = b := by
  unfold cmpInt
  split
  · omega
  · split <;> omega

theorem cmpNat_eq_zero_iff (a b : ℕ) : cmpNat a b = 0 ↔ a = b := by
  unfold cmpNat
  rw [cmpInt_eq_zero_iff]
  omega

theorem cmpList_eq_zero_iff (f : α → α → ℤ) (hf : ∀ a b, f a b = 0 ↔ a = b) :
    ∀ xs ys : List α, cmpList f xs ys = 0 ↔ xs = ys
  | [], [] => by simp [cmpList]
  | [], _ :: _ => by simp [cmpList]
  | _ :: _, [] => by simp [cmpList]
  | x :: xs, y :: ys => by
    by_cases h : f x y = 0
    · have hxy : x = y := (hf x y).mp h
      subst hxy
      simp [cmpList, h, cmpList_eq_zero_iff f hf xs ys]
    · have hxy : x ≠ y := fun e => h ((hf x y).mpr e)
      simp [cmpList, h, hxy]

/-- Comparison of ray generators. -/
def cmpRay : RayV → RayV → ℤ := cmpList cmpInt

theorem cmpRay_eq_zero_iff (a b : RayV) : cmpRay a b = 0 ↔ a = b :=
  cmpList_eq_zero_iff cmpInt cmpInt_eq_zero_iff a b

/-- Structural comparison of fans (rays, then generating cones). -/
def cmpFan (F G : FanData) : ℤ :=
  if cmpList cmpRay F.rays G.rays = 0 then cmpList (cmpList cmpNat) F.cones G.cones
  else cmpList cmpRay F.rays G.rays

theorem cmpFan_eq_zero_iff (F G : FanData) : cmpFan F G = 0 ↔ F = G := by
  obtain ⟨r1, c1⟩ := F
  obtain ⟨r2, c2⟩ := G
  unfold cmpFan
  by_cases h : cmpList cmpRay r1 r2 = 0 <;>
    simp_all [cmpList_eq_zero_iff cmpRay cmpRay_eq_zero_iff,
      cmpList_eq_zero_iff (cmpList cmpNat)
        (cmpList_eq_zero_iff cmpNat cmpNat_eq_zero_iff)]

/-- Comparison of toric varieties, per the spec structural on the fan. -/
def cmpVariety (X Y : ToricVariety) : ℤ := cmpFan X.fan Y.fan

theorem cmpVariety_eq_zero_iff (X Y : ToricVariety) : cmpVariety X Y = 0 ↔ X = Y := by
  obtain ⟨F⟩ := X
  obtain ⟨G⟩ := Y
  simp [cmpVariety, cmpFan_eq_zero_iff]

/-- Modelled from the spec: comparison of `FanMorphism` values
(`sage.geometry.fan_morphism`, outside the source files).  Per the spec they
are immutable values with structural equality, same matrix and same fans,
compared here lexicographically. -/
def cmpFanMorphism (f g : FanMorphism) : ℤ :=
  if cmpList cmpRay f.matrix g.matrix = 0 then
    if cmpFan f.domain_fan g.domain_fan = 0 then cmpFan f.codomain_fan g.codomain_fan
    else cmpFan f.domain_fan g.domain_fan
  else cmpList cmpRay f.matrix g.matrix

theorem cmpFanMorphism_eq_zero_iff (f g : FanMorphism) : cmpFanMorphism f g = 0 ↔ f = g := by
  obtain ⟨m1, d1, c1⟩ := f
  obtain ⟨m2, d2, c2⟩ := g
  unfold cmpFanMorphism
  by_cases h1 : cmpList cmpRay m1 m2 = 0 <;>
    by_cases h2 : cmpFan d1 d2 = 0 <;>
      simp_all [cmpList_eq_zero_iff cmpRay cmpRay_eq_zero_iff, cmpFan_eq_zero_iff]

/-- The `right` argument of `__cmp__`: another fan-defined toric morphism, or
a value of any other Python type (identified by a type tag). -/
inductive PyValue where
  | fanMorphismClass (g : SchemeMorphism_fan_toric_variety)
  | otherType (tag : ℕ)

/-- `SchemeMorphism_fan_toric_variety.__cmp__`: for another instance of the
class, compare the lists `[domain, codomain, fan morphism]` lexicographically;
otherwise compare the two Python types, which are distinct and in Python 2
never compare equal (modelled by the nonzero result 1). -/
def fan_toric_variety_cmp (f : SchemeMorphism_fan_toric_variety) (right : PyValue) : ℤ :=
  match right with
  | .fanMorphismClass g =>
    if cmpVariety f.domain g.domain = 0 then
      if cmpVariety f.codomain g.codomain = 0 then
        cmpFanMorphism f.fan_morphism g.fan_morphism
      else cmpVariety f.codomain g.codomain
    else cmpVariety f.domain g.domain
  | .otherType _ => 1

/-- C4: equality of fan-based toric morphisms is structural: comparison of
`f` with another fan-based toric morphism `g` yields 0 if and only if they
have the same domain variety, the same codomain variety and equal fan
morphisms (same matrix and same fans); comparison with a value that is not a
fan-based toric morphism never yields 0. -/
theorem fan_toric_variety_cmp_spec (f g : SchemeMorphism_fan_toric_variety) (tag : ℕ) :
    (fan_toric_variety_cmp f (.fanMorphismClass g) = 0 ↔
      f.domain = g.domain ∧ f.codomain = g.codomain ∧ f.fan_morphism = g.fan_morphism) ∧
    fan_toric_variety_cmp f (.otherType tag) ≠ 0 := by
  constructor
  · unfold fan_toric_variety_cmp
    by_cases h1 : cmpVariety f.domain g.domain = 0 <;>
      by_cases h2 : cmpVariety f.codomain g.codomain = 0 <;>
        simp_all [cmpVariety_eq_zero_iff, cmpFanMorphism_eq_zero_iff]
  · simp [fan_toric_variety_cmp]

/-- Witness for C4: the identity toric morphism of the affine line compares
equal to itself. -/
theorem fan_toric_variety_cmp_spec_witness :
    fan_toric_variety_cmp ⟨⟨a1Fan⟩, ⟨a1Fan⟩, ⟨[[1]], a1Fan, a1Fan⟩⟩
      (.fanMorphismClass ⟨⟨a1Fan⟩, ⟨a1Fan⟩, ⟨[[1]], a1Fan, a1Fan⟩⟩) = 0 :=
  ((fan_toric_variety_cmp_spec ⟨⟨a1Fan⟩, ⟨a1Fan⟩, ⟨[[1]], a1Fan, a1Fan⟩⟩
      ⟨⟨a1Fan⟩, ⟨a1Fan⟩, ⟨[[1]], a1Fan, a1Fan⟩⟩ 0).1).mpr ⟨rfl, rfl, rfl⟩

/-- The image cone `sigma = phi.image_cone(rho)` of a 1-dimensional domain
cone: its ray generators `sigma.rays()` and its `ambient_ray_indices()` into
the rays of the codomain fan. -/
structure ImageConeData where
  rays : List RayV
  ambient_ray_indices : List ℕ
deriving DecidableEq

/-- Per 1-dimensional cone `rho` of the domain fan: the primitive generator
`rho.ray(0)`, the image cone, and the exponent vector
`degrees = sigma.rays().matrix().solve_left(phi(ray))`. -/
structure DomainRayData where
  ray : RayV
  image_cone : ImageConeData
  degrees : List ℚ
deriving DecidableEq

/-- The data of a fan morphism consumed by `as_polynomial_map`: the defining
matrix, the number of rays and the lattice dimension of the codomain fan, and
the per-domain-ray data above (one entry per 1-dimensional cone of the
domain fan, in the order in which they are zipped with `R.gens()`). -/
structure FanMorphismData where
  matrix : List RayV
  codomain_nrays : ℕ
  codomain_dim : ℕ
  domain_rays : List DomainRayData
deriving DecidableEq

/-- Coordinate `j` of the rational linear combination `sum_i cs[i] * vs[i]`. -/
def linCombCoord (cs : List ℚ) (vs : List RayV) (j : ℕ) : ℚ :=
  ((cs.zip vs).map (fun p => p.1 * ((p.2.getD j 0 : ℤ) : ℚ))).sum

/-- Coordinate `j` of `phi(ray) = ray * matrix` (ray generators act as row
vectors on the defining matrix). -/
def rowMatCoord (v : RayV) (M : List RayV) (j : ℕ) : ℚ :=
  ((List.range M.length).map
    (fun i => ((v.getD i 0 : ℤ) : ℚ) * (((M.getD i []).getD j 0 : ℤ) : ℚ))).sum

/-- For every domain ray, `degrees` solves the linear system
`degrees * sigma.rays().matrix() = phi(ray)` that `solve_left` solves inside
`as_polynomial_map`. -/
def degreesSolve (fm : FanMorphismData) : Prop :=
  ∀ rd ∈ fm.domain_rays, ∀ j < fm.codomain_dim,
    linCombCoord rd.degrees rd.image_cone.rays j = rowMatCoord rd.ray fm.matrix j

instance (fm : FanMorphismData) : Decidable (degreesSolve fm) := by
  unfold degreesSolve
  infer_instance

/-- A monomial in the homogeneous coordinates of the domain: the exponent of
each domain variable (one variable per domain ray).  `R.one()` is the
all-zero exponent vector. -/
abbrev Monomial := List ℤ

/-- `polys[i] *= x_k ** d` on the monomial at position `i`. -/
def mulVar (m : Monomial) (k : ℕ) (d : ℤ) : Monomial := m.set k (m.getD k 0 + d)

/-- The exact `TypeError` message of `as_polynomial_map`. -/
def homogeneousError : String :=
  "The fan morphism cannot be written in homogeneous polynomials."

/-- The inner loop of `as_polynomial_map`: for `i, d` in
`zip(sigma.ambient_ray_indices(), degrees)`, try `ZZ(d)` (raising the
`TypeError` when `d` is not integral) and multiply `polys[i]` by
`x_k ** d`, where `x_k` is the generator paired with the current domain
ray. -/
def rayFold (k : ℕ) : List (ℕ × ℚ) → List Monomial → Except String (List Monomial)
  | [], polys => .ok polys
  | p :: rest, polys =>
    if p.2.den = 1 then
      rayFold k rest (polys.set p.1 (mulVar (polys.getD p.1 []) k p.2.num))
    else .error homogeneousError

/-- The outer loop of `as_polynomial_map` over
`zip(phi.domain_fan(1), R.gens())`; `k` is the index of the current
generator. -/
def raysFold (k : ℕ) : List DomainRayData → List Monomial → Except String (List Monomial)
  | [], polys => .ok polys
  | rd :: rest, polys =>
    match rayFold k (rd.image_cone.ambient_ray_indices.zip rd.degrees) polys with
    | .ok ps => raysFold (k + 1) rest ps
    | .error e => .error e

/-- `SchemeMorphism_fan_toric_variety.as_polynomial_map`: starting from one
copy of `R.one()` per ray of the codomain fan, accumulate the contribution of
every domain ray. -/
def as_polynomial_map (fm : FanMorphismData) : Except String (List Monomial) :=
  raysFold 0 fm.domain_rays
    (List.replicate fm.codomain_nrays (List.replicate fm.domain_rays.length 0))

theorem rayFold_ok_of_integral (k : ℕ) (l : List (ℕ × ℚ)) (polys : List Monomial)
    (h : ∀ p ∈ l, p.2.den = 1) :
    ∃ out, rayFold k l polys = .ok out ∧ out.length = polys.length := by
  induction l generalizing polys with
  | nil => exact ⟨polys, rfl, rfl⟩
  | cons p rest ih =>
    rw [rayFold, if_pos (h p (List.mem_cons_self p rest))]
    obtain ⟨out, hout, hlen⟩ :=
      ih (polys.set p.1 (mulVar (polys.getD p.1 []) k p.2.num))
        (fun q hq => h q (List.mem_cons_of_mem p hq))
    exact ⟨out, hout, by simpa using hlen⟩

theorem rayFold_error_of_nonintegral (k : ℕ) (l : List (ℕ × ℚ)) (polys : List Monomial)
    (h : ∃ p ∈ l, p.2.den ≠ 1) :
    rayFold k l polys = .error homogeneousError := by
  induction l generalizing polys with
  | nil => simp at h
  | cons p rest ih =>
    by_cases hp : p.2.den = 1
    · rw [rayFold, if_pos hp]
      apply ih
      obtain ⟨q, hq, hqden⟩ := h
      rcases List.mem_cons.mp hq with hq1 | hq2
      · exact absurd (hq1 ▸ hp) hqden
      · exact ⟨q, hq2, hqden⟩
    · rw [rayFold, if_neg hp]

theorem raysFold_ok_of_integral (k : ℕ) (l : List DomainRayData) (polys : List Monomial)
    (h : ∀ rd ∈ l, ∀ p ∈ rd.image_cone.ambient_ray_indices.zip rd.degrees, p.2.den = 1) :
    ∃ out, raysFold k l polys = .ok out ∧ out.length = polys.length := by
  induction l generalizing polys k with
  | nil => exact ⟨polys, rfl, rfl⟩
  | cons rd rest ih =>
    obtain ⟨mid, hmid, hmidlen⟩ :=
      rayFold_ok_of_integral k (rd.image_cone.ambient_ray_indices.zip rd.degrees) polys
        (h rd (List.mem_cons_self rd rest))
    rw [raysFold, hmid]
    obtain ⟨out, hout, hlen⟩ :=
      ih (k + 1) mid (fun rd2 h2 => h rd2 (List.mem_cons_of_mem rd h2))
    exact ⟨out, hout, hmidlen ▸ hlen⟩

theorem raysFold_error_of_nonintegral (k : ℕ) (l : List DomainRayData) (polys : List Monomial)
    (h : ∃ rd ∈ l, ∃ p ∈ rd.image_cone.ambient_ray_indices.zip rd.degrees, p.2.den ≠ 1) :
    raysFold k l polys = .error homogeneousError := by
  induction l generalizing polys k with
  | nil => simp at h
  | cons rd rest ih =>
    by_cases hrd : ∃ p ∈ rd.image_cone.ambient_ray_indices.zip rd.degrees, p.2.den ≠ 1
    · rw [raysFold,
        rayFold_error_of_nonintegral k (rd.image_cone.ambient_ray_indices.zip rd.degrees)
          polys hrd]
    · push_neg at hrd
      obtain ⟨mid, hmid, _⟩ :=
        rayFold_ok_of_integral k (rd.image_cone.ambient_ray_indices.zip rd.degrees) polys hrd
      rw [raysFold, hmid]
      apply ih
      obtain ⟨rd2, hrd2, p, hp, hpden⟩ := h
      rcases List.mem_cons.mp hrd2 with h1 | h2
      · subst h1
        exact absurd (hrd p hp) (by simpa using hpden)
      · exact ⟨rd2, h2, p, hp, hpden⟩

theorem mem_zip_of_mem_right {l1 : List ℕ} {l2 : List ℚ} (h : l1.length = l2.length)
    (d : ℚ) (hd : d ∈ l2) : ∃ i, (i, d) ∈ l1.zip l2 := by
  induction l2 generalizing l1 with
  | nil => simp at hd
  | cons b bs ih =>
    match l1, h with
    | a :: as, h =>
      rcases List.mem_cons.mp hd with h1 | h2
      · exact ⟨a, by simp [h1]⟩
      · obtain ⟨i, hi⟩ := ih (by simpa using h) h2
        exact ⟨i, List.mem_cons_of_mem _ hi⟩

/-- C1: `as_polynomial_map` returns a tuple of (monomial, hence homogeneous)
polynomials with exactly one entry per ray of the codomain fan whenever all
exponents obtained by solving the image of each domain ray's primitive
generator against the rays of its image cone are integral, and raises
`TypeError` with the message
"The fan morphism cannot be written in homogeneous polynomials." whenever
some required exponent is non-integral. -/
theorem as_polynomial_map_spec (fm : FanMorphismData)
    (hsolve : degreesSolve fm)
    (hlen : ∀ rd ∈ fm.domain_rays,
      rd.image_cone.ambient_ray_indices.length = rd.degrees.length) :
    ((∀ rd ∈ fm.domain_rays, ∀ d ∈ rd.degrees, d.den = 1) →
      ∃ polys, as_polynomial_map fm = .ok polys ∧ polys.length = fm.codomain_nrays) ∧
    ((∃ rd ∈ fm.domain_rays, ∃ d ∈ rd.degrees, d.den ≠ 1) →
      as_polynomial_map fm = .error homogeneousError) := by
  constructor
  · intro h
    obtain ⟨out, hout, hlen2⟩ :=
      raysFold_ok_of_integral 0 fm.domain_rays
        (List.replicate fm.codomain_nrays (List.replicate fm.domain_rays.length 0))
        (fun rd hrd p hp => h rd hrd p.2 (List.of_mem_zip hp).2)
    exact ⟨out, hout, by simpa using hlen2⟩
  · intro h
    obtain ⟨rd, hrd, d, hd, hden⟩ := h
    obtain ⟨i, hi⟩ := mem_zip_of_mem_right (hlen rd hrd) d hd
    exact raysFold_error_of_nonintegral 0 fm.domain_rays _ ⟨rd, hrd, (i, d), hi, hden⟩

/-- The fan morphism data of the doctest `A1.hom(matrix([[2]]), A1)`
(`z -> z^2`): one domain ray `(1)` with image cone the ray `(1)` of the
codomain and exponent vector `(2)`. -/
def squareFmData : FanMorphismData :=
  { matrix := [[2]]
    codomain_nrays := 1
    codomain_dim := 1
    domain_rays :=
      [{ ray := [1]
         image_cone := { rays := [[1]], ambient_ray_indices := [0] }
         degrees := [2] }] }

theorem squareFmData_solve : degreesSolve squareFmData := by
  intro rd hrd j hj
  simp only [squareFmData, List.mem_singleton] at hrd
  have hj1 : j = 0 := by
    simp only [squareFmData] at hj
    omega
  subst hrd
  subst hj1
  norm_num [linCombCoord, rowMatCoord, squareFmData, List.range_succ]

/-- Witness for C1: on the squaring morphism of the affine line all exponents
are integral and the morphism is expressed by one monomial per codomain
ray. -/
theorem as_polynomial_map_spec_witness :
    ∃ polys, as_polynomial_map squareFmData = .ok polys ∧
      polys.length = squareFmData.codomain_nrays :=
  (as_polynomial_map_spec squareFmData squareFmData_solve (by decide)).1
    (by norm_num [squareFmData])

/-- A polynomial of the homogeneous coordinate ring, as a list of terms
(integer coefficient times monomial). -/
abbrev Poly := List (ℤ × Monomial)

/-- A monomial viewed as the polynomial with that single term. -/
def monomialPoly (m : Monomial) : Poly := [(1, m)]

/-- A morphism of toric varieties determined by homogeneous polynomials
(`SchemeMorphism_polynomial_toric_variety`): its defining polynomials. -/
structure SchemeMorphism_polynomial_toric_variety where
  defining_polynomials : List Poly
deriving DecidableEq

/-- `SchemeMorphism_polynomial_toric_variety.as_fan_morphism`: the body of the
source method is a single unconditional
`raise NotImplementedError("expressing toric morphisms as fan morphisms is not implemented yet!")`. -/
def as_fan_morphism (phi : SchemeMorphism_polynomial_toric_variety) :
    Except String SchemeMorphism_fan_toric_variety :=
  .error "expressing toric morphisms as fan morphisms is not implemented yet!"

/-- C3 counterexample: the polynomial morphism `[z] -> [z]` of the affine
line has exactly the defining polynomials produced by `as_polynomial_map` on
the identity fan morphism, i.e. it coincides with a torus-equivariant
fan-defined morphism, yet `as_fan_morphism` does not return that fan
morphism: it raises `NotImplementedError`. -/
theorem as_fan_morphism_counterexample :
    as_polynomial_map
        { matrix := [[1]]
          codomain_nrays := 1
          codomain_dim := 1
          domain_rays :=
            [{ ray := [1]
               image_cone := { rays := [[1]], ambient_ray_indices := [0] }
               degrees := [1] }] } = .ok [[1]] ∧
    (SchemeMorphism_polynomial_toric_variety.mk [monomialPoly [1]]).defining_polynomials =
      ([[1]] : List Monomial).map monomialPoly ∧
    as_fan_morphism ⟨[monomialPoly [1]]⟩ =
      .error "expressing toric morphisms as fan morphisms is not implemented yet!" :=
  ⟨rfl, rfl, rfl⟩

/-- C3 (amended): `as_fan_morphism` never produces a fan morphism; for every
polynomial toric morphism it raises `NotImplementedError` with the message
"expressing toric morphisms as fan morphisms is not implemented yet!", even
when the morphism coincides with a fan-defined one. -/
theorem as_fan_morphism_always_raises (phi : SchemeMorphism_polynomial_toric_variety) :
    as_fan_morphism phi =
      .error "expressing toric morphisms as fan morphisms is not implemented yet!" := rfl

/-- The product of two integer matrices (rows of `A` combined with columns
of `B`). -/
def matMul (A B : List RayV) : List RayV :=
  A.map (fun row =>
    (List.range (B.headD []).length).map (fun j =>
      ((List.range B.length).map (fun k => row.getD k 0 * (B.getD k []).getD j 0)).sum))

/-- Modelled from the spec: composition of fan morphisms
(`FanMorphism.__mul__` of `sage.geometry.fan_morphism`, outside the source
files).  Per the spec's data model a fan morphism is an integer matrix
acting on ray generators as row vectors, so `f * g` (apply `g` first) has
matrix `g.matrix * f.matrix` and chains the fans of `g` and `f`. -/
def fmMul (f g : FanMorphism) : FanMorphism :=
  ⟨matMul g.matrix f.matrix, g.domain_fan, f.codomain_fan⟩

/-- `SchemeMorphism_fan_toric_variety._composition_`: the composition
`self * right` is defined by the fan morphism
`self.fan_morphism() * right.fan_morphism()` between the domain of `right`
and the codomain of `self`. -/
def composition (self right : SchemeMorphism_fan_toric_variety) :
    SchemeMorphism_fan_toric_variety :=
  ⟨right.domain, self.codomain, fmMul self.fan_morphism right.fan_morphism⟩

/-- Modelled from the spec: the operations of `sage.geometry.fan_morphism`
delegated to by `factor`, `is_surjective` and `is_injective` (that module is
outside the source files).  The spec describes `FanMorphism` as supporting
"kernel/image computation, factorization into
surjective ∘ birational ∘ injective pieces" but gives no algorithm, so the
fan-level predicates and factorization enter the model as oracle fields; the
claim's theorem assumes the documented postcondition of
`FanMorphism.factor` about them. -/
structure FanGeometry where
  is_surjective : FanMorphism → Bool
  is_birational : FanMorphism → Bool
  is_injective : FanMorphism → Bool
  factor : FanMorphism → FanMorphism × FanMorphism × FanMorphism

/-- `SchemeMorphism_fan_toric_variety.is_surjective`:
`return self.fan_morphism().is_surjective()`. -/
def SchemeMorphism_fan_toric_variety.is_surjective
    (f : SchemeMorphism_fan_toric_variety) (G : FanGeometry) : Bool :=
  G.is_surjective f.fan_morphism

/-- `SchemeMorphism_fan_toric_variety.is_injective`:
`return self.fan_morphism().is_injective()`. -/
def SchemeMorphism_fan_toric_variety.is_injective
    (f : SchemeMorphism_fan_toric_variety) (G : FanGeometry) : Bool :=
  G.is_injective f.fan_morphism

/-- `SchemeMorphism_fan_toric_variety.factor`: take the fan-level triple
`phi_i, phi_b, phi_s = self.fan_morphism().factor()`, build the intermediate
varieties `X_s = ToricVariety(phi_s.codomain_fan())` and
`X_i = ToricVariety(phi_i.domain_fan())`, and wrap the three pieces as
toric morphisms `X_i -> X_prime`, `X_s -> X_i` and `X -> X_s`. -/
def factor (G : FanGeometry) (phi : SchemeMorphism_fan_toric_variety) :
    SchemeMorphism_fan_toric_variety × SchemeMorphism_fan_toric_variety ×
      SchemeMorphism_fan_toric_variety :=
  let t := G.factor phi.fan_morphism
  let phi_i := t.1
  let phi_b := t.2.1
  let phi_s := t.2.2
  let X := phi.domain
  let X_s : ToricVariety := ⟨phi_s.codomain_fan⟩
  let X_i : ToricVariety := ⟨phi_i.domain_fan⟩
  let X_prime := phi.codomain
  (⟨X_i, X_prime, phi_i⟩, ⟨X_s, X_i, phi_b⟩, ⟨X, X_s, phi_s⟩)

/-- C2: whenever the fan-level `FanMorphism.factor` meets its documented
postcondition — a triple `(phi_i, phi_b, phi_s)` with `phi_s` surjective,
`phi_b` birational, `phi_i` injective whose composition is the original fan
morphism — the toric-level `phi.factor()` returns a triple
`(Phi_i, Phi_b, Phi_s)` of fan-based toric morphisms in that order such
that `Phi_s` is surjective, `Phi_b` is birational, `Phi_i` is injective,
the three pieces are composable through the intermediate varieties, and
`prod(phi.factor()) == phi`, i.e. `Phi_i * Phi_b * Phi_s` compares equal
to `phi`. -/
theorem factor_spec (G : FanGeometry) (phi : SchemeMorphism_fan_toric_variety)
    (phi_i phi_b phi_s : FanMorphism)
    (hfac : G.factor phi.fan_morphism = (phi_i, phi_b, phi_s))
    (hs : G.is_surjective phi_s = true)
    (hb : G.is_birational phi_b = true)
    (hi : G.is_injective phi_i = true)
    (hcomp : fmMul (fmMul phi_i phi_b) phi_s = phi.fan_morphism) :
    (factor G phi).2.2.is_surjective G = true ∧
    G.is_birational (factor G phi).2.1.fan_morphism = true ∧
    (factor G phi).1.is_injective G = true ∧
    (factor G phi).2.1.domain = (factor G phi).2.2.codomain ∧
    (factor G phi).1.domain = (factor G phi).2.1.codomain ∧
    fan_toric_variety_cmp
      (composition (composition (factor G phi).1 (factor G phi).2.1) (factor G phi).2.2)
      (.fanMorphismClass phi) = 0 := by
  have h1 : (factor G phi).1 = ⟨⟨phi_i.domain_fan⟩, phi.codomain, phi_i⟩ := by
    simp [factor, hfac]
  have h2 : (factor G phi).2.1 = ⟨⟨phi_s.codomain_fan⟩, ⟨phi_i.domain_fan⟩, phi_b⟩ := by
    simp [factor, hfac]
  have h3 : (factor G phi).2.2 = ⟨phi.domain, ⟨phi_s.codomain_fan⟩, phi_s⟩ := by
    simp [factor, hfac]
  refine ⟨?_, ?_, ?_, ?_, ?_, ?_⟩
  · rw [h3]
    exact hs
  · rw [h2]
    exact hb
  · rw [h1]
    exact hi
  · rw [h2, h3]
  · rw [h1, h2]
  · rw [h1, h2, h3]
    simp only [composition]
    have hfm : fmMul (fmMul phi_i phi_b) phi_s = phi.fan_morphism := hcomp
    simp [fan_toric_variety_cmp, cmpVariety_eq_zero_iff, cmpFanMorphism_eq_zero_iff, hfm]

/-- The identity toric morphism of the affine line, for the witness of C2. -/
def idA1Toric : SchemeMorphism_fan_toric_variety :=
  ⟨⟨a1Fan⟩, ⟨a1Fan⟩, ⟨[[1]], a1Fan, a1Fan⟩⟩

/-- A concrete fan geometry whose factorization of the identity is the
identity three times, for the witness of C2. -/
def idFanGeometry : FanGeometry :=
  { is_surjective := fun _ => true
    is_birational := fun _ => true
    is_injective := fun _ => true
    factor := fun f => (f, f, f) }

/-- Witness for C2: the factorization of the identity morphism of the
affine line is surjective/birational/injective piecewise and multiplies
back to the identity morphism. -/
theorem factor_spec_witness :
    (factor idFanGeometry idA1Toric).2.2.is_surjective idFanGeometry = true ∧
    fan_toric_variety_cmp
      (composition
        (composition (factor idFanGeometry idA1Toric).1 (factor idFanGeometry idA1Toric).2.1)
        (factor idFanGeometry idA1Toric).2.2)
      (.fanMorphismClass idA1Toric) = 0 :=
  have h := factor_spec idFanGeometry idA1Toric ⟨[[1]], a1Fan, a1Fan⟩
    ⟨[[1]], a1Fan, a1Fan⟩ ⟨[[1]], a1Fan, a1Fan⟩ rfl rfl rfl rfl (by decide)
  ⟨h.1, h.2.2.2.2.2⟩

/-- A cone of a fan, by its set of primitive ray generators (the cone
`Cone(gens)` depends only on the set of generators). -/
structure ConeF where
  rays : Finset RayV
deriving DecidableEq

/-- `cone.is_trivial()`: the trivial cone is the zero-dimensional cone,
spanned by no rays. -/
def ConeF.is_trivial (c : ConeF) : Bool := decide (c.rays = ∅)

/-- The fan-morphism data used by the fiber machinery of
`SchemeMorphism_fan_toric_variety`.  The pieces computed by
`sage.geometry.fan_morphism` and by the lattice/cone primitives (kernel fan,
echelon coordinates, fan containment, primitive preimage cones, the
solve/saturation/quotient steps of `_make_fiber`) live outside the three
source files; per the spec they are external capabilities and enter the
model as data and oracle fields. -/
structure FibrationModel where
  kernel_fan_rays : List RayV
  kernel_fan_gen_cones : List (List RayV)
  kernel_echelon : RayV → RayV
  kernel_echelonized_basis : List RayV
  domain_fan_contains : Finset RayV → Bool
  primitive_preimage_cones : ConeF → List ConeF
  embed : ConeF → ConeF
  image_cone : ConeF → ConeF
  make_fiber : ConeF → FanData

/-- The generic fiber variety constructed by
`SchemeMorphism_fan_toric_variety.fiber`, together with the matrix of its
embedding morphism. -/
structure FiberVariety where
  fan : FanData
  embedding_matrix : List RayV
deriving DecidableEq

/-- `SchemeMorphism_fan_toric_variety.fiber`: rewrite the kernel fan in a
plain lattice, mapping each ray through `K.echelon_coordinates` and
rebuilding every generating cone from the indices of its rays in
`ker_fan.rays()`; the embedding is defined by
`K.echelonized_basis_matrix()`. -/
def fiber (M : FibrationModel) : FiberVariety :=
  { fan :=
      { rays := M.kernel_fan_rays.map M.kernel_echelon
        cones := M.kernel_fan_gen_cones.map
          (fun c => c.map (fun r => M.kernel_fan_rays.indexOf r)) }
    embedding_matrix := M.kernel_echelonized_basis }

/-- `SchemeMorphism_fan_fiber_toric_variety` as built by its constructor:
`self._defining_cone = domain_fan.embed(defining_cone)`,
`self._base_cone = fan_morphism.image_cone(defining_cone)`, and the fiber
fan produced by `self._make_fiber()`. -/
structure FanFiberEmbedding where
  defining_cone : ConeF
  base_cone : ConeF
  fiber_fan : FanData
deriving DecidableEq

/-- The result of `fiber_component`: either the generic fiber or a
fiber-component embedding. -/
inductive FiberComponentResult where
  | genericFiber (v : FiberVariety)
  | componentEmbedding (e : FanFiberEmbedding)
deriving DecidableEq

/-- `SchemeMorphism_fan_toric_variety.fiber_component`: for the trivial cone
return `self.fiber()`; otherwise construct a
`SchemeMorphism_fan_fiber_toric_variety` and return its domain. -/
def fiber_component (M : FibrationModel) (domain_cone : ConeF) : FiberComponentResult :=
  if domain_cone.is_trivial then .genericFiber (fiber M)
  else
    .componentEmbedding
      { defining_cone := M.embed domain_cone
        base_cone := M.image_cone domain_cone
        fiber_fan := M.make_fiber (M.embed domain_cone) }

/-- C8: calling `fiber_component` with the trivial (zero-dimensional) cone
returns the generic fiber `self.fiber()` — the kernel-fan variety, i.e. the
connected component of the fiber over the base point with homogeneous
coordinates all 1 — rather than constructing a fiber-component embedding. -/
theorem fiber_component_trivial (M : FibrationModel) (c : ConeF)
    (h : c.is_trivial = true) :
    fiber_component M c = .genericFiber (fiber M) := by
  simp [fiber_component, h]

/-- A concrete fibration model for the witness of C8. -/
def trivialFibrationModel : FibrationModel :=
  { kernel_fan_rays := [[1]]
    kernel_fan_gen_cones := [[[1]]]
    kernel_echelon := fun r => r
    kernel_echelonized_basis := [[1]]
    domain_fan_contains := fun _ => false
    primitive_preimage_cones := fun _ => []
    embed := fun c => c
    image_cone := fun c => c
    make_fiber := fun _ => ⟨[], []⟩ }

/-- Witness for C8 at the trivial cone of a concrete model. -/
theorem fiber_component_trivial_witness :
    fiber_component trivialFibrationModel ⟨∅⟩ =
      .genericFiber (fiber trivialFibrationModel) :=
  fiber_component_trivial trivialFibrationModel ⟨∅⟩ (by decide)

/-- The matrix entry `is_union_in_fan(self, prim[i], prim[j])` of
`fiber_graph` (Sage coerces the boolean into `ZZ`): whether the cone
generated by the rays of the two primitive cones together is contained in
the domain fan. -/
def unionInFanEntry (M : FibrationModel) (prim : List ConeF) (i j : ℕ) : ℤ :=
  if M.domain_fan_contains ((prim.getD i ⟨∅⟩).rays ∪ (prim.getD j ⟨∅⟩).rays) then 1 else 0

/-- The value of the graph produced by `fiber_graph`: the vertex count, the
adjacency relation of the 0/1 matrix handed to
`Graph(m, loops=False, multiedges=False)`, and the labels set by
`set_vertex`. -/
structure FiberGraphData where
  nvertices : ℕ
  adjacency : ℕ → ℕ → Bool
  vertex_labels : List FiberComponentResult

/-- `SchemeMorphism_fan_toric_variety.fiber_graph`: enumerate
`fm.primitive_preimage_cones(codomain_cone)`, build the n x n matrix of
`is_union_in_fan` entries, zero its diagonal, turn it into a simple loopless
graph on vertices `0 .. n-1` (an edge where the entry is nonzero), and label
vertex `i` with `fiber_component(prim[i])`. -/
def fiber_graph (M : FibrationModel) (codomain_cone : ConeF) : FiberGraphData :=
  let prim := M.primitive_preimage_cones codomain_cone
  let m1 : ℕ → ℕ → ℤ := fun i j => if i = j then 0 else unionInFanEntry M prim i j
  { nvertices := prim.length
    adjacency := fun i j => decide (m1 i j ≠ 0)
    vertex_labels := prim.map (fiber_component M) }

/-- C5: `fiber_graph sigma` enumerates the primitive preimage cones of
`sigma` and returns a loopless simple graph with exactly one vertex per
primitive preimage cone, vertex `i` labelled with `fiber_component` of the
i-th primitive cone, and an edge between distinct vertices `i` and `j`
exactly when the cone generated by the union of the rays of the two
primitive cones is contained in the domain fan; the adjacency is
symmetric. -/
theorem fiber_graph_spec (M : FibrationModel) (sigma : ConeF) :
    (fiber_graph M sigma).nvertices = (M.primitive_preimage_cones sigma).length ∧
    (fiber_graph M sigma).vertex_labels =
      (M.primitive_preimage_cones sigma).map (fiber_component M) ∧
    (∀ i, (fiber_graph M sigma).adjacency i i = false) ∧
    (∀ i j, i ≠ j →
      ((fiber_graph M sigma).adjacency i j = true ↔
        M.domain_fan_contains
          (((M.primitive_preimage_cones sigma).getD i ⟨∅⟩).rays ∪
            ((M.primitive_preimage_cones sigma).getD j ⟨∅⟩).rays) = true)) ∧
    (∀ i j, (fiber_graph M sigma).adjacency i j = (fiber_graph M sigma).adjacency j i) := by
  refine ⟨rfl, rfl, fun i => by simp [fiber_graph], fun i j hij => ?_, fun i j => ?_⟩
  · simp only [fiber_graph, unionInFanEntry, if_neg hij]
    by_cases hc :
        M.domain_fan_contains
          (((M.primitive_preimage_cones sigma).getD i ⟨∅⟩).rays ∪
            ((M.primitive_preimage_cones sigma).getD j ⟨∅⟩).rays) = true <;>
      simp [hc]
  · by_cases hij : i = j
    · subst hij
      rfl
    · simp only [fiber_graph, unionInFanEntry, if_neg hij, if_neg (Ne.symm hij)]
      rw [Finset.union_comm]

/-- A concrete fibration model with two primitive preimage cones for the
witness of C5. -/
def edgeFibrationModel : FibrationModel :=
  { kernel_fan_rays := []
    kernel_fan_gen_cones := []
    kernel_echelon := fun r => r
    kernel_echelonized_basis := []
    domain_fan_contains := fun _ => true
    primitive_preimage_cones := fun _ => [⟨{[1, 0]}⟩, ⟨{[0, 1]}⟩]
    embed := fun c => c
    image_cone := fun c => c
    make_fiber := fun _ => ⟨[], []⟩ }

/-- Witness for C5: in a model whose domain fan contains every generated
cone, the two distinct primitive cones are joined by an edge. -/
theorem fiber_graph_spec_witness :
    (fiber_graph edgeFibrationModel ⟨∅⟩).adjacency 0 1 = true :=
  ((fiber_graph_spec edgeFibrationModel ⟨∅⟩).2.2.2.1 0 1 (by decide)).mpr rfl

end Toric

namespace Frames

/-- An open subset of the base space, modelled as a finite set of points:
`==` on manifold subsets is equality of subsets and `is_subset` is
inclusion. -/
abbrev Dom := Finset ℕ

/-- Frames live in an arena and reference each other by index (following the
spec's design note: an arena of frame records with explicit adjacency). -/
abbrev FrameId := ℕ

/-- The state of one `LocalFrame`: its domain and the three mutable
attributes installed by `LocalFrame.__init__`
(`self._restrictions = {}`, `self._subframes = {self}`,
`self._superframes = {self}`). -/
structure Frame where
  domain : Dom
  restrictions : List (Dom × FrameId)
  superframes : List FrameId
  subframes : List FrameId
deriving DecidableEq

/-- The arena of all frames created so far. -/
abbrev FrameArena := List Frame

def getFrame (s : FrameArena) (i : FrameId) : Frame := s.getD i ⟨∅, [], [], []⟩

def updFrame (s : FrameArena) (i : FrameId) (g : Frame → Frame) : FrameArena :=
  s.set i (g (getFrame s i))

def updRestrictions (s : FrameArena) (i : FrameId)
    (g : List (Dom × FrameId) → List (Dom × FrameId)) : FrameArena :=
  updFrame s i (fun f => { f with restrictions := g f.restrictions })

def updSuperframes (s : FrameArena) (i : FrameId)
    (g : List FrameId → List FrameId) : FrameArena :=
  updFrame s i (fun f => { f with superframes := g f.superframes })

def updSubframes (s : FrameArena) (i : FrameId)
    (g : List FrameId → List FrameId) : FrameArena :=
  updFrame s i (fun f => { f with subframes := g f.subframes })

/-- Lookup in a Python dict keyed by domains. -/
def dictLookup (d : List (Dom × FrameId)) (k : Dom) : Option FrameId :=
  (d.find? (fun p => decide (p.1 = k))).map (fun p => p.2)

/-- `d[k] = v` on a Python dict: overwrite an existing key, else append. -/
def dictInsert (d : List (Dom × FrameId)) (k : Dom) (v : FrameId) : List (Dom × FrameId) :=
  if d.any (fun p => decide (p.1 = k)) then
    d.map (fun p => if p.1 = k then (k, v) else p)
  else d ++ [(k, v)]

/-- `d.update(e)` on Python dicts. -/
def dictUpdate (d e : List (Dom × FrameId)) : List (Dom × FrameId) :=
  e.foldl (fun acc p => dictInsert acc p.1 p.2) d

/-- `xs.add(x)` on a Python set, in the insertion-ordered model. -/
def setInsert (xs : List FrameId) (x : FrameId) : List FrameId :=
  if x ∈ xs then xs else xs ++ [x]

/-- `xs.update(ys)` on Python sets. -/
def setUnion (xs ys : List FrameId) : List FrameId := ys.foldl setInsert xs

/-- Failure modes of the model: the `ValueError` raised by `restrict` for a
non-subdomain, exhaustion of the recursion fuel, and the failure of the
final `return self._restrictions[subdomain]` (a `KeyError` in Python,
unreachable in well-formed states). -/
inductive RErr where
  | valueError
  | outOfFuel
  | missingEntry
deriving DecidableEq

/-- One step of `for sframe2 in self._superframes: sframe2._subframes.add(res)`. -/
def subframeStep (res : FrameId) (acc : FrameArena) (sf : FrameId) : FrameArena :=
  updSubframes acc sf (fun xs => setInsert xs res)

/-- The state after the identical bodies of the two cache-sharing branches of
`restrict` (lines 330-335 and 344-349 of the source):
`self._restrictions[subdomain] = res`,
`res._superframes.update(self._superframes)`, and
`sframe2._subframes.add(res)` for every superframe of `self`. -/
def cacheShareState (s : FrameArena) (e : FrameId) (V : Dom) (res : FrameId) : FrameArena :=
  let s1 := updRestrictions s e (fun d => dictInsert d V res)
  let s2 := updSuperframes s1 res (fun xs => setUnion xs (getFrame s1 e).superframes)
  (getFrame s2 e).superframes.foldl (subframeStep res) s2

/-- A cache-sharing branch returns `self._restrictions[subdomain]`,
i.e. `res`, in the state above. -/
def cacheShare (s : FrameArena) (e : FrameId) (V : Dom) (res : FrameId) :
    FrameId × FrameArena :=
  (res, cacheShareState s e V res)

/-- The first loop of `restrict`: the restriction cached under the first
`(dom, rst)` of `self._restrictions` with `subdomain ⊆ dom` and
`subdomain in rst._restrictions`. -/
def findTighterCached (s : FrameArena) (e : FrameId) (V : Dom) : Option FrameId :=
  match (getFrame s e).restrictions.find?
      (fun p => decide (V ⊆ p.1) && (dictLookup (getFrame s p.2).restrictions V).isSome) with
  | none => none
  | some p => dictLookup (getFrame s p.2).restrictions V

/-- The third loop of `restrict`: the restriction cached on the first
superframe of `self` that has one. -/
def findSuperCached (s : FrameArena) (e : FrameId) (V : Dom) : Option FrameId :=
  match (getFrame s e).superframes.find?
      (fun sf => (dictLookup (getFrame s sf).restrictions V).isSome) with
  | none => none
  | some sf => dictLookup (getFrame s sf).restrictions V

/-- One step of the superframe loop of the from-scratch branch (lines
369-371): `sframe._subframes.add(res)` then
`sframe._restrictions[subdomain] = res`. -/
def recordStep (V : Dom) (res : FrameId) (acc : FrameArena) (sf : FrameId) : FrameArena :=
  updRestrictions (updSubframes acc sf (fun xs => setInsert xs res)) sf
    (fun d => dictInsert d V res)

/-- One step of the final loop over `self._restrictions` of the from-scratch
branch (lines 372-376): for a tighter `dom`,
`res._restrictions.update(rst._restrictions)`,
`res._subframes.update(rst._subframes)` and
`rst._superframes.update(res._superframes)`. -/
def mergeStep (V : Dom) (res : FrameId) (acc : FrameArena) (p : Dom × FrameId) : FrameArena :=
  if p.1 ⊆ V then
    let acc1 := updRestrictions acc res
      (fun d => dictUpdate d (getFrame acc p.2).restrictions)
    let acc2 := updSubframes acc1 res
      (fun xs => setUnion xs (getFrame acc1 p.2).subframes)
    updSuperframes acc2 p.2 (fun xs => setUnion xs (getFrame acc2 res).superframes)
  else acc

/-- The arena after the from-scratch tail of `restrict` (lines 350-376):
construct a fresh `LocalFrame` on `subdomain` (whose `__init__` makes it its
own sub- and superframe), extend its superframes by those of `self`, run the
superframe recording loop, and merge the caches of the already-known tighter
restrictions into the new frame. -/
def scratchState (s : FrameArena) (e : FrameId) (V : Dom) : FrameArena :=
  let res := s.length
  let s1 := s ++ [⟨V, [], [res], [res]⟩]
  let s2 := updSuperframes s1 res (fun xs => setUnion xs (getFrame s1 e).superframes)
  let s3 := (getFrame s2 e).superframes.foldl (recordStep V res) s2
  (getFrame s3 e).restrictions.foldl (mergeStep V res) s3

/-- The from-scratch branch ends with the final
`return self._restrictions[subdomain]` of the method (a `KeyError` if the
entry is absent). -/
def restrictScratch (s : FrameArena) (e : FrameId) (V : Dom) :
    Except RErr (FrameId × FrameArena) :=
  match dictLookup (getFrame (scratchState s e V) e).restrictions V with
  | some r => .ok (r, scratchState s e V)
  | none => .error .missingEntry

/-- The body of `LocalFrame.restrict`; `recur` stands for the recursive call
`rst.restrict(subdomain)` of the second loop.  The control flow follows the
source: return `self` on the full domain; return the cached entry when one
exists; raise `ValueError` when `subdomain` is not a subset of the domain;
then try the two loops over `self._restrictions`, the loop over
`self._superframes`, and finally build the restriction from scratch. -/
def restrictGo (recur : FrameArena → FrameId → Dom → Except RErr (FrameId × FrameArena))
    (s : FrameArena) (e : FrameId) (V : Dom) : Except RErr (FrameId × FrameArena) :=
  if V = (getFrame s e).domain then .ok (e, s)
  else
    match dictLookup (getFrame s e).restrictions V with
    | some r => .ok (r, s)
    | none =>
      if V ⊆ (getFrame s e).domain then
        match findTighterCached s e V with
        | some res => .ok (cacheShare s e V res)
        | none =>
          match (getFrame s e).restrictions.find? (fun p => decide (V ⊆ p.1)) with
          | some p =>
            match recur s p.2 V with
            | .ok (r, s1) => .ok (r, updRestrictions s1 e (fun d => dictInsert d V r))
            | .error err => .error err
          | none =>
            match findSuperCached s e V with
            | some res => .ok (cacheShare s e V res)
            | none => restrictScratch s e V
      else .error .valueError

/-- `LocalFrame.restrict` with explicit fuel bounding the recursion depth. -/
def restrict : ℕ → FrameArena → FrameId → Dom → Except RErr (FrameId × FrameArena)
  | 0, _, _, _ => .error .outOfFuel
  | fuel + 1, s, e, V => restrictGo (restrict fuel) s e V

theorem restrict_succ (fuel : ℕ) (s : FrameArena) (e : FrameId) (V : Dom) :
    restrict (fuel + 1) s e V = restrictGo (restrict fuel) s e V := rfl

/-- The domains of the C7 scenario: `U ⊃ W ⊃ W2 ⊃ V` and `W3 ⊂ U` with
`W2 ⊂ W3` but `W3` incomparable with `W`. -/
def domU : Dom := {1, 2, 3, 4}

def domW : Dom := {1, 2, 3}

def domW2 : Dom := {1, 2}

def domV : Dom := {1}

def domW3 : Dom := {1, 2, 4}

/-- The run refuting the superframe-recording part of C7: starting from a
single frame `a` on `U` (id 0), form `b = a.restrict(W)` (id 1),
`g = b.restrict(V)` (id 2), `c = b.restrict(W2)` (id 3) and
`h = a.restrict(W3)` (id 4) -- the last step copies the cache of `c` into
`h` (which gains nothing) and makes `h` a superframe of `c` -- and then
perform the first call `c.restrict(V)`. -/
def counterexampleRun : Option (FrameId × FrameArena) :=
  (do
    let (b, s1) ← restrict 9 [⟨domU, [], [0], [0]⟩] 0 domW
    let (_g, s2) ← restrict 9 s1 b domV
    let (c, s3) ← restrict 9 s2 b domW2
    let (_h, s4) ← restrict 9 s3 0 domW3
    restrict 9 s4 c domV).toOption

/-- C7 counterexample: in the reachable state above, the first call
`c.restrict(V)` returns the cached frame `g` (id 2) and the second call
returns the identical frame with no further state change, but the first
call does not record the result in the `_restrictions` map of every
superframe of `c`: frame `h` (id 4) is a superframe of `c` and its
`_restrictions` map has no entry for `V` after the call. -/
theorem restrict_superframe_recording_counterexample :
    counterexampleRun.map Prod.fst = some 2 ∧
    counterexampleRun.bind (fun p => (restrict 9 p.2 3 domV).toOption) = counterexampleRun ∧
    counterexampleRun.map (fun p => decide (4 ∈ (getFrame p.2 3).superframes)) = some true ∧
    counterexampleRun.map (fun p => dictLookup (getFrame p.2 4).restrictions domV) =
      some none := by
  refine ⟨?_, ?_, ?_, ?_⟩ <;> decide

theorem getFrame_out (s : FrameArena) (i : FrameId) (h : s.length ≤ i) :
    getFrame s i = ⟨∅, [], [], []⟩ :=
  List.getD_eq_default _ _ h

theorem updFrame_out (s : FrameArena) (i : FrameId) (g : Frame → Frame)
    (h : s.length ≤ i) : updFrame s i g = s :=
  List.set_eq_of_length_le h

theorem length_updFrame (s : FrameArena) (i : FrameId) (g : Frame → Frame) :
    (updFrame s i g).length = s.length :=
  List.length_set ..

theorem getFrame_updFrame_self (s : FrameArena) (i : FrameId) (g : Frame → Frame)
    (h : i < s.length) : getFrame (updFrame s i g) i = g (getFrame s i) := by
  unfold getFrame updFrame
  rw [List.getD_eq_getD_get?, List.getD_eq_getD_get?, List.get?_set_eq_of_lt _ h]
  simp only [Option.getD_some]
  rw [show getFrame s i = (s.get? i).getD ⟨∅, [], [], []⟩ from List.getD_eq_getD_get? _ _ _,
    List.get?_eq_getElem?]

theorem getFrame_updFrame_ne (s : FrameArena) (i j : FrameId) (g : Frame → Frame)
    (h : j ≠ i) : getFrame (updFrame s i g) j = getFrame s j := by
  unfold getFrame updFrame
  rw [List.getD_eq_getD_get?, List.getD_eq_getD_get?, List.get?_set_ne _ _ (Ne.symm h)]

theorem getFrame_updFrame (s : FrameArena) (i : FrameId) (g : Frame → Frame) (j : FrameId) :
    getFrame (updFrame s i g) j =
      if j = i ∧ j < s.length then g (getFrame s i) else getFrame s j := by
  by_cases hj : j = i
  · subst hj
    by_cases hl : j < s.length
    · simp [hl, getFrame_updFrame_self _ _ _ hl]
    · simp [hl, updFrame_out _ _ _ (Nat.le_of_not_lt hl)]
  · simp [hj, getFrame_updFrame_ne _ _ _ _ hj]

theorem getFrame_append_lt (s : FrameArena) (f : Frame) (j : FrameId) (hj : j < s.length) :
    getFrame (s ++ [f]) j = getFrame s j := by
  unfold getFrame
  exact List.getD_append _ _ _ _ hj

theorem proj_updFrame {β : Type} (P : Frame → β) (s : FrameArena) (i : FrameId)
    (g : Frame → Frame) (j : FrameId) (hg : ∀ f, P (g f) = P f) :
    P (getFrame (updFrame s i g) j) = P (getFrame s j) := by
  rw [getFrame_updFrame]
  split
  · next h => rw [h.1, hg]
  · rfl

theorem domain_updRestrictions (s : FrameArena) (i : FrameId)
    (g : List (Dom × FrameId) → List (Dom × FrameId)) (j : FrameId) :
    (getFrame (updRestrictions s i g) j).domain = (getFrame s j).domain :=
  proj_updFrame Frame.domain s i _ j (fun _ => rfl)

theorem domain_updSuperframes (s : FrameArena) (i : FrameId)
    (g : List FrameId → List FrameId) (j : FrameId) :
    (getFrame (updSuperframes s i g) j).domain = (getFrame s j).domain :=
  proj_updFrame Frame.domain s i _ j (fun _ => rfl)

theorem domain_updSubframes (s : FrameArena) (i : FrameId)
    (g : List FrameId → List FrameId) (j : FrameId) :
    (getFrame (updSubframes s i g) j).domain = (getFrame s j).domain :=
  proj_updFrame Frame.domain s i _ j (fun _ => rfl)

theorem restrictions_updSuperframes (s : FrameArena) (i : FrameId)
    (g : List FrameId → List FrameId) (j : FrameId) :
    (getFrame (updSuperframes s i g) j).restrictions = (getFrame s j).restrictions :=
  proj_updFrame Frame.restrictions s i _ j (fun _ => rfl)

theorem restrictions_updSubframes (s : FrameArena) (i : FrameId)
    (g : List FrameId → List FrameId) (j : FrameId) :
    (getFrame (updSubframes s i g) j).restrictions = (getFrame s j).restrictions :=
  proj_updFrame Frame.restrictions s i _ j (fun _ => rfl)

theorem restrictions_updRestrictions_ne (s : FrameArena) (i : FrameId)
    (g : List (Dom × FrameId) → List (Dom × FrameId)) (j : FrameId) (h : j ≠ i) :
    (getFrame (updRestrictions s i g) j).restrictions = (getFrame s j).restrictions := by
  unfold updRestrictions
  rw [getFrame_updFrame_ne _ _ _ _ h]

theorem proj_foldl {α : Type} {β : Type} (P : Frame → β)
    (step : FrameArena → α → FrameArena) (j : FrameId)
    (hstep : ∀ acc x, P (getFrame (step acc x) j) = P (getFrame acc j)) :
    ∀ (l : List α) (acc : FrameArena),
      P (getFrame (l.foldl step acc) j) = P (getFrame acc j)
  | [], _ => rfl
  | x :: rest, acc => by
    rw [List.foldl_cons, proj_foldl P step j hstep rest, hstep]

theorem length_foldl {α : Type} (step : FrameArena → α → FrameArena)
    (hstep : ∀ acc x, (step acc x).length = acc.length) :
    ∀ (l : List α) (acc : FrameArena), (l.foldl step acc).length = acc.length
  | [], _ => rfl
  | x :: rest, acc => by
    rw [List.foldl_cons, length_foldl step hstep rest, hstep]

theorem dictLookup_map_overwrite (d : List (Dom × FrameId)) (k : Dom) (v : FrameId)
    (h : d.any (fun p => decide (p.1 = k)) = true) :
    dictLookup (d.map (fun p => if p.1 = k then (k, v) else p)) k = some v := by
  induction d with
  | nil => simp at h
  | cons p rest ih =>
    by_cases hp : p.1 = k
    · simp [dictLookup, hp]
    · have h2 : rest.any (fun p => decide (p.1 = k)) = true := by
        simpa [hp] using h
      simpa [dictLookup, hp] using ih h2

theorem dictLookup_append_self (d : List (Dom × FrameId)) (k : Dom) (v : FrameId)
    (h : d.any (fun p => decide (p.1 = k)) = false) :
    dictLookup (d ++ [(k, v)]) k = some v := by
  induction d with
  | nil => simp [dictLookup]
  | cons p rest ih =>
    have hp : ¬ p.1 = k := by
      intro hk
      simp [hk] at h
    have h2 : rest.any (fun p => decide (p.1 = k)) = false := by
      simpa [hp] using h
    simpa [dictLookup, hp] using ih h2

theorem dictLookup_dictInsert_self (d : List (Dom × FrameId)) (k : Dom) (v : FrameId) :
    dictLookup (dictInsert d k v) k = some v := by
  unfold dictInsert
  by_cases h : d.any (fun p => decide (p.1 = k)) = true
  · rw [if_pos h]
    exact dictLookup_map_overwrite d k v h
  · rw [if_neg h]
    exact dictLookup_append_self d k v (Bool.eq_false_iff.mpr h)

theorem length_subframeStep (res : FrameId) (acc : FrameArena) (sf : FrameId) :
    (subframeStep res acc sf).length = acc.length := by
  simp only [subframeStep, updSubframes, length_updFrame]

theorem length_recordStep (V : Dom) (res : FrameId) (acc : FrameArena) (sf : FrameId) :
    (recordStep V res acc sf).length = acc.length := by
  simp only [recordStep, updRestrictions, updSubframes, length_updFrame]

theorem length_mergeStep (V : Dom) (res : FrameId) (acc : FrameArena) (p : Dom × FrameId) :
    (mergeStep V res acc p).length = acc.length := by
  simp only [mergeStep]
  split
  · simp only [updSuperframes, updSubframes, updRestrictions, length_updFrame]
  · rfl

theorem domain_subframeStep (res : FrameId) (acc : FrameArena) (sf j : FrameId) :
    (getFrame (subframeStep res acc sf) j).domain = (getFrame acc j).domain :=
  domain_updSubframes ..

theorem domain_recordStep (V : Dom) (res : FrameId) (acc : FrameArena) (sf j : FrameId) :
    (getFrame (recordStep V res acc sf) j).domain = (getFrame acc j).domain := by
  simp only [recordStep]
  rw [domain_updRestrictions, domain_updSubframes]

theorem domain_mergeStep (V : Dom) (res : FrameId) (acc : FrameArena) (p : Dom × FrameId)
    (j : FrameId) :
    (getFrame (mergeStep V res acc p) j).domain = (getFrame acc j).domain := by
  simp only [mergeStep]
  split
  · rw [domain_updSuperframes, domain_updSubframes, domain_updRestrictions]
  · rfl

theorem restrictions_subframeStep (res : FrameId) (acc : FrameArena) (sf j : FrameId) :
    (getFrame (subframeStep res acc sf) j).restrictions = (getFrame acc j).restrictions :=
  restrictions_updSubframes ..

theorem restrictions_mergeStep (V : Dom) (res : FrameId) (acc : FrameArena)
    (p : Dom × FrameId) (j : FrameId) (hj : j ≠ res) :
    (getFrame (mergeStep V res acc p) j).restrictions = (getFrame acc j).restrictions := by
  simp only [mergeStep]
  split
  · rw [restrictions_updSuperframes, restrictions_updSubframes,
      restrictions_updRestrictions_ne _ _ _ _ hj]
  · rfl

theorem length_cacheShareState (s : FrameArena) (e : FrameId) (V : Dom) (res : FrameId) :
    (cacheShareState s e V res).length = s.length := by
  simp only [cacheShareState]
  rw [length_foldl (subframeStep res) (fun acc x => length_subframeStep res acc x)]
  simp only [updSuperframes, updRestrictions, length_updFrame]

theorem domain_cacheShareState (s : FrameArena) (e : FrameId) (V : Dom) (res : FrameId)
    (j : FrameId) :
    (getFrame (cacheShareState s e V res) j).domain = (getFrame s j).domain := by
  simp only [cacheShareState]
  rw [proj_foldl Frame.domain (subframeStep res) j (fun acc x => domain_subframeStep res acc x j),
    domain_updSuperframes, domain_updRestrictions]

theorem cacheShareState_lookup (s : FrameArena) (e : FrameId) (V : Dom) (res : FrameId)
    (he : e < s.length) :
    dictLookup (getFrame (cacheShareState s e V res) e).restrictions V = some res := by
  simp only [cacheShareState]
  rw [proj_foldl Frame.restrictions (subframeStep res) e
      (fun acc x => restrictions_subframeStep res acc x e),
    restrictions_updSuperframes]
  simp only [updRestrictions]
  rw [getFrame_updFrame_self _ _ _ he]
  exact dictLookup_dictInsert_self _ _ _

theorem length_scratchState (s : FrameArena) (e : FrameId) (V : Dom) :
    (scratchState s e V).length = s.length + 1 := by
  simp only [scratchState]
  rw [length_foldl (mergeStep V s.length) (fun acc x => length_mergeStep V s.length acc x),
    length_foldl (recordStep V s.length) (fun acc x => length_recordStep V s.length acc x)]
  simp only [updSuperframes, length_updFrame, List.length_append, List.length_singleton]

theorem domain_scratchState (s : FrameArena) (e : FrameId) (V : Dom) (j : FrameId)
    (hj : j < s.length) :
    (getFrame (scratchState s e V) j).domain = (getFrame s j).domain := by
  simp only [scratchState]
  rw [proj_foldl Frame.domain (mergeStep V s.length) j
      (fun acc x => domain_mergeStep V s.length acc x j),
    proj_foldl Frame.domain (recordStep V s.length) j
      (fun acc x => domain_recordStep V s.length acc x j),
    domain_updSuperframes, getFrame_append_lt s _ j hj]

theorem lt_of_restrictions_ne_nil (s : FrameArena) (e : FrameId)
    (h : (getFrame s e).restrictions ≠ []) : e < s.length := by
  by_contra hle
  rw [getFrame_out s e (Nat.le_of_not_lt hle)] at h
  exact h rfl

theorem lt_of_superframes_ne_nil (s : FrameArena) (e : FrameId)
    (h : (getFrame s e).superframes ≠ []) : e < s.length := by
  by_contra hle
  rw [getFrame_out s e (Nat.le_of_not_lt hle)] at h
  exact h rfl

theorem lt_of_dictLookup_some (s : FrameArena) (e : FrameId) (V : Dom) (r : FrameId)
    (h : dictLookup (getFrame s e).restrictions V = some r) : e < s.length := by
  apply lt_of_restrictions_ne_nil
  intro hnil
  rw [hnil] at h
  simp [dictLookup] at h

theorem lt_of_findTighter_some (s : FrameArena) (e : FrameId) (V : Dom) (res : FrameId)
    (h : findTighterCached s e V = some res) : e < s.length := by
  apply lt_of_restrictions_ne_nil
  intro hnil
  unfold findTighterCached at h
  rw [hnil] at h
  simp at h

theorem lt_of_find_subset_some (s : FrameArena) (e : FrameId) (V : Dom) (p : Dom × FrameId)
    (h : (getFrame s e).restrictions.find? (fun q => decide (V ⊆ q.1)) = some p) :
    e < s.length := by
  apply lt_of_restrictions_ne_nil
  intro hnil
  rw [hnil] at h
  simp at h

theorem lt_of_findSuper_some (s : FrameArena) (e : FrameId) (V : Dom) (res : FrameId)
    (h : findSuperCached s e V = some res) : e < s.length := by
  apply lt_of_superframes_ne_nil
  intro hnil
  unfold findSuperCached at h
  rw [hnil] at h
  simp at h

theorem lt_of_scratch_branch (s : FrameArena) (e : FrameId) (V : Dom)
    (h1 : V ≠ (getFrame s e).domain) (h2 : V ⊆ (getFrame s e).domain) : e < s.length := by
  by_contra hle
  rw [getFrame_out s e (Nat.le_of_not_lt hle)] at h1 h2
  exact h1 (Finset.subset_empty.mp h2)

theorem restrictScratch_ok (s : FrameArena) (e : FrameId) (V : Dom) (r : FrameId)
    (s' : FrameArena) (h : restrictScratch s e V = .ok (r, s')) :
    s' = scratchState s e V ∧
      dictLookup (getFrame (scratchState s e V) e).restrictions V = some r := by
  unfold restrictScratch at h
  split at h
  · next r0 heq =>
    simp only [Except.ok.injEq, Prod.mk.injEq] at h
    exact ⟨h.2.symm, h.1 ▸ heq⟩
  · simp at h

theorem restrictGo_cases
    (recur : FrameArena → FrameId → Dom → Except RErr (FrameId × FrameArena))
    (s : FrameArena) (e : FrameId) (V : Dom) (r : FrameId) (s' : FrameArena)
    (h : restrictGo recur s e V = .ok (r, s')) :
    (V = (getFrame s e).domain ∧ r = e ∧ s' = s) ∨
    (V ≠ (getFrame s e).domain ∧
      ((dictLookup (getFrame s e).restrictions V = some r ∧ s' = s) ∨
        (∃ res, findTighterCached s e V = some res ∧ r = res ∧
          s' = cacheShareState s e V res) ∨
        (∃ p s1, (getFrame s e).restrictions.find? (fun q => decide (V ⊆ q.1)) = some p ∧
          recur s p.2 V = .ok (r, s1) ∧
          s' = updRestrictions s1 e (fun d => dictInsert d V r)) ∨
        (∃ res, findSuperCached s e V = some res ∧ r = res ∧
          s' = cacheShareState s e V res) ∨
        (V ⊆ (getFrame s e).domain ∧ restrictScratch s e V = .ok (r, s')))) := by
  unfold restrictGo at h
  split at h
  · next h1 =>
    simp only [Except.ok.injEq, Prod.mk.injEq] at h
    exact Or.inl ⟨h1, h.1.symm, h.2.symm⟩
  · next h1 =>
    refine Or.inr ?_
    split at h
    · next r0 hlk =>
      simp only [Except.ok.injEq, Prod.mk.injEq] at h
      exact ⟨h1, Or.inl ⟨h.1 ▸ hlk, h.2.symm⟩⟩
    · next hlk =>
      split at h
      · next hsub =>
        split at h
        · next res hft =>
          simp only [cacheShare, Except.ok.injEq, Prod.mk.injEq] at h
          exact ⟨h1, Or.inr (Or.inl ⟨res, hft, h.1.symm, h.2.symm⟩)⟩
        · next hft =>
          split at h
          · next p hfp =>
            split at h
            · next r0 s1 hrec =>
              simp only [Except.ok.injEq, Prod.mk.injEq] at h
              refine ⟨h1, Or.inr (Or.inr (Or.inl ⟨p, s1, hfp, ?_, ?_⟩))⟩
              · rw [← h.1]; exact hrec
              · rw [← h.2, ← h.1]
            · next err hrec =>
              simp at h
          · next hfp =>
            split at h
            · next res hfs =>
              simp only [cacheShare, Except.ok.injEq, Prod.mk.injEq] at h
              exact ⟨h1, Or.inr (Or.inr (Or.inr (Or.inl ⟨res, hfs, h.1.symm, h.2.symm⟩)))⟩
            · next hfs =>
              exact ⟨h1, Or.inr (Or.inr (Or.inr (Or.inr ⟨hsub, h⟩)))⟩
      · next hsub =>
        simp at h

theorem restrict_mono :
    ∀ (fuel : ℕ) (s : FrameArena) (x : FrameId) (V : Dom) (r : FrameId) (s' : FrameArena),
      restrict fuel s x V = .ok (r, s') →
      s.length ≤ s'.length ∧ ∀ j < s.length, (getFrame s' j).domain = (getFrame s j).domain
  | 0, s, x, V, r, s', h => by simp [restrict] at h
  | fuel + 1, s, x, V, r, s', h => by
    rw [restrict_succ] at h
    rcases restrictGo_cases _ s x V r s' h with ⟨_, _, h3⟩ | ⟨_, hcase⟩
    · subst h3
      exact ⟨le_refl _, fun j _ => rfl⟩
    rcases hcase with ⟨_, h3⟩ | ⟨res, _, _, h4⟩ | ⟨p, s1, _, h3, h4⟩ | ⟨res, _, _, h4⟩ | ⟨_, h3⟩
    · subst h3
      exact ⟨le_refl _, fun j _ => rfl⟩
    · subst h4
      exact ⟨le_of_eq (length_cacheShareState ..).symm,
        fun j _ => domain_cacheShareState s x V res j⟩
    · obtain ⟨hle, hdom⟩ := restrict_mono fuel s p.2 V r s1 h3
      subst h4
      refine ⟨?_, fun j hj => ?_⟩
      · simpa only [updRestrictions, length_updFrame] using hle
      · rw [domain_updRestrictions]
        exact hdom j hj
    · subst h4
      exact ⟨le_of_eq (length_cacheShareState ..).symm,
        fun j _ => domain_cacheShareState s x V res j⟩
    · obtain ⟨hs, _⟩ := restrictScratch_ok s x V r s' h3
      subst hs
      refine ⟨?_, fun j hj => domain_scratchState s x V j hj⟩
      rw [length_scratchState]
      exact Nat.le_succ _

theorem restrict_ok_main (fuel : ℕ) (s : FrameArena) (e : FrameId) (V : Dom)
    (r : FrameId) (s' : FrameArena) (h : restrict (fuel + 1) s e V = .ok (r, s')) :
    (V = (getFrame s e).domain ∧ r = e ∧ s' = s) ∨
    (V ≠ (getFrame s' e).domain ∧ dictLookup (getFrame s' e).restrictions V = some r) := by
  rw [restrict_succ] at h
  rcases restrictGo_cases _ s e V r s' h with hc | ⟨h1, hcase⟩
  · exact Or.inl hc
  refine Or.inr ?_
  rcases hcase with ⟨h2, h3⟩ | ⟨res, h2, h3, h4⟩ | ⟨p, s1, h2, h3, h4⟩ | ⟨res, h2, h3, h4⟩ |
    ⟨h2, h3⟩
  · subst h3
    exact ⟨h1, h2⟩
  · subst h3
    have he := lt_of_findTighter_some s e V r h2
    subst h4
    exact ⟨by rw [domain_cacheShareState]; exact h1, cacheShareState_lookup s e V r he⟩
  · have he := lt_of_find_subset_some s e V p h2
    obtain ⟨hle, hdom⟩ := restrict_mono fuel s p.2 V r s1 h3
    subst h4
    refine ⟨?_, ?_⟩
    · rw [domain_updRestrictions, hdom e he]
      exact h1
    · simp only [updRestrictions]
      rw [getFrame_updFrame_self _ _ _ (lt_of_lt_of_le he hle)]
      exact dictLookup_dictInsert_self _ _ _
  · subst h3
    have he := lt_of_findSuper_some s e V r h2
    subst h4
    exact ⟨by rw [domain_cacheShareState]; exact h1, cacheShareState_lookup s e V r he⟩
  · obtain ⟨hs, hlk⟩ := restrictScratch_ok s e V r s' h3
    have he := lt_of_scratch_branch s e V h1 h2
    subst hs
    exact ⟨by rw [domain_scratchState s e V e he]; exact h1, hlk⟩

theorem recordStep_other (V : Dom) (res : FrameId) (acc : FrameArena) (sf j : FrameId)
    (h : j ≠ sf) : getFrame (recordStep V res acc sf) j = getFrame acc j := by
  simp only [recordStep, updRestrictions, updSubframes]
  rw [getFrame_updFrame_ne _ _ _ _ h, getFrame_updFrame_ne _ _ _ _ h]

theorem recordFold_other (V : Dom) (res : FrameId) :
    ∀ (l : List FrameId) (acc : FrameArena) (j : FrameId), j ∉ l →
      getFrame (l.foldl (recordStep V res) acc) j = getFrame acc j
  | [], _, _, _ => rfl
  | x :: rest, acc, j, hj => by
    rw [List.foldl_cons,
      recordFold_other V res rest _ j (fun hh => hj (List.mem_cons_of_mem _ hh)),
      recordStep_other V res acc x j (fun hh => hj (by rw [hh]; exact List.mem_cons_self _ _))]

theorem recordStep_lookup (V : Dom) (res : FrameId) (acc : FrameArena) (sf : FrameId)
    (h : sf < acc.length) :
    dictLookup (getFrame (recordStep V res acc sf) sf).restrictions V = some res := by
  simp only [recordStep, updRestrictions]
  rw [getFrame_updFrame_self _ _ _
    (by simpa only [updSubframes, length_updFrame] using h)]
  exact dictLookup_dictInsert_self _ _ _

theorem recordFold_lookup (V : Dom) (res : FrameId) :
    ∀ (l : List FrameId) (acc : FrameArena) (sf : FrameId), sf ∈ l → sf < acc.length →
      dictLookup (getFrame (l.foldl (recordStep V res) acc) sf).restrictions V = some res
  | [], _, _, h, _ => by simp at h
  | x :: rest, acc, sf, hmem, hlen => by
    rw [List.foldl_cons]
    by_cases hr : sf ∈ rest
    · exact recordFold_lookup V res rest _ sf hr
        (by rw [length_recordStep]; exact hlen)
    · have hx : sf = x := by
        rcases List.mem_cons.mp hmem with h | h
        · exact h
        · exact absurd h hr
      subst hx
      rw [recordFold_other V res rest _ sf hr]
      exact recordStep_lookup V res acc sf hlen

/-- Well-formed arenas: every frame is one of its own superframes (as
`LocalFrame.__init__` establishes) and superframe ids are valid indices. -/
def WF (s : FrameArena) : Prop :=
  ∀ i < s.length, i ∈ (getFrame s i).superframes ∧
    ∀ sf ∈ (getFrame s i).superframes, sf < s.length

instance (s : FrameArena) : Decidable (WF s) := by
  unfold WF
  infer_instance

/-- The branch conditions routing `restrict` to the from-scratch tail. -/
def scratchCond (s : FrameArena) (e : FrameId) (V : Dom) : Prop :=
  V ≠ (getFrame s e).domain ∧
  dictLookup (getFrame s e).restrictions V = none ∧
  V ⊆ (getFrame s e).domain ∧
  findTighterCached s e V = none ∧
  (getFrame s e).restrictions.find? (fun p => decide (V ⊆ p.1)) = none ∧
  findSuperCached s e V = none

instance (s : FrameArena) (e : FrameId) (V : Dom) : Decidable (scratchCond s e V) := by
  unfold scratchCond
  infer_instance

theorem scratchState_records (s : FrameArena) (e : FrameId) (V : Dom) (hwf : WF s)
    (he : e < s.length) (sf : FrameId) (hsf : sf ∈ (getFrame s e).superframes) :
    dictLookup (getFrame (scratchState s e V) sf).restrictions V = some s.length := by
  have hsfl : sf < s.length := (hwf e he).2 sf hsf
  have hne : e ≠ s.length := Nat.ne_of_lt he
  have hsfne : sf ≠ s.length := Nat.ne_of_lt hsfl
  simp only [scratchState]
  rw [proj_foldl Frame.restrictions (mergeStep V s.length) sf
    (fun acc x => restrictions_mergeStep V s.length acc x sf hsfne)]
  have hsup :
      (getFrame (updSuperframes (s ++ [(⟨V, [], [s.length], [s.length]⟩ : Frame)]) s.length
          (fun xs => setUnion xs
            (getFrame (s ++ [(⟨V, [], [s.length], [s.length]⟩ : Frame)]) e).superframes))
        e).superframes = (getFrame s e).superframes := by
    simp only [updSuperframes]
    rw [getFrame_updFrame_ne _ _ _ _ hne, getFrame_append_lt s _ e he]
  rw [hsup]
  apply recordFold_lookup V s.length _ _ sf hsf
  show sf < (updSuperframes (s ++ [(⟨V, [], [s.length], [s.length]⟩ : Frame)]) s.length
    (fun xs => setUnion xs
      (getFrame (s ++ [(⟨V, [], [s.length], [s.length]⟩ : Frame)]) e).superframes)).length
  simp only [updSuperframes, length_updFrame, List.length_append, List.length_singleton]
  exact Nat.lt_succ_of_lt hsfl

theorem restrict_scratch_route (fuel : ℕ) (s : FrameArena) (e : FrameId) (V : Dom)
    (hcond : scratchCond s e V)
    (hlk : dictLookup (getFrame (scratchState s e V) e).restrictions V = some s.length) :
    restrict (fuel + 1) s e V = .ok (s.length, scratchState s e V) := by
  obtain ⟨h1, h2, h3, h4, h5, h6⟩ := hcond
  rw [restrict_succ]
  simp only [restrictGo, restrictScratch, h2, h4, h5, h6, hlk, if_neg h1, if_pos h3]

/-- C7 (amended): for every local frame `e`, `e.restrict(U)` with `U` the
frame's own domain returns `e` itself with no state change; restriction
results are cached: after a successful call `e.restrict(V)` with `V` a
proper subdomain the result is recorded in the `_restrictions` map of `e`,
and a second call `e.restrict(V)` returns the identical frame with the
state unchanged; the result is recorded in the `_restrictions` map of every
superframe of `e` when the restriction is constructed from scratch —
cache-derived first calls record it in `e` alone and can leave a superframe
of `e` without the entry (see the counterexample). -/
theorem restrict_amended (fuel fuel' : ℕ) (s : FrameArena) (e : FrameId) (V : Dom)
    (r : FrameId) (s' : FrameArena) :
    restrict (fuel + 1) s e (getFrame s e).domain = .ok (e, s) ∧
    (restrict (fuel + 1) s e V = .ok (r, s') →
      restrict (fuel' + 1) s' e V = .ok (r, s')) ∧
    (restrict (fuel + 1) s e V = .ok (r, s') → V ≠ (getFrame s e).domain →
      dictLookup (getFrame s' e).restrictions V = some r) ∧
    (WF s → e < s.length → scratchCond s e V →
      restrict (fuel + 1) s e V = .ok (s.length, scratchState s e V) ∧
      ∀ sf ∈ (getFrame s e).superframes,
        dictLookup (getFrame (scratchState s e V) sf).restrictions V = some s.length) := by
  refine ⟨?_, ?_, ?_, ?_⟩
  · rw [restrict_succ]
    unfold restrictGo
    rw [if_pos rfl]
  · intro h
    rcases restrict_ok_main fuel s e V r s' h with ⟨h1, h2, h3⟩ | ⟨h1, h2⟩
    · subst h2
      subst h3
      rw [restrict_succ]
      unfold restrictGo
      rw [if_pos h1]
    · rw [restrict_succ]
      simp only [restrictGo, if_neg h1, h2]
  · intro h hne
    rcases restrict_ok_main fuel s e V r s' h with ⟨h1, _, _⟩ | ⟨_, h2⟩
    · exact absurd h1 hne
    · exact h2
  · intro hwf he hcond
    have hrec := fun sf hsf => scratchState_records s e V hwf he sf hsf
    exact ⟨restrict_scratch_route fuel s e V hcond (hrec e ((hwf e he).1)), hrec⟩

/-- A one-frame arena for the witness of the amended C7. -/
def wFrame : Frame := ⟨{1, 2}, [], [0], [0]⟩

/-- Witness for the amended C7 at the one-frame arena: restricting to the
full domain returns the frame itself, and a from-scratch restriction to
`{1}` succeeds and is recorded in the `_restrictions` of frame 0 (the sole
superframe of itself). -/
theorem restrict_amended_witness :
    restrict 3 [wFrame] 0 (getFrame [wFrame] 0).domain = .ok (0, [wFrame]) ∧
    restrict 3 [wFrame] 0 {1} = .ok (1, scratchState [wFrame] 0 {1}) ∧
    dictLookup (getFrame (scratchState [wFrame] 0 {1}) 0).restrictions {1} = some 1 :=
  ⟨(restrict_amended 2 2 [wFrame] 0 {1} 0 []).1,
   ((restrict_amended 2 2 [wFrame] 0 {1} 0 []).2.2.2 (by decide) (by decide) (by decide)).1,
   ((restrict_amended 2 2 [wFrame] 0 {1} 0 []).2.2.2 (by decide) (by decide)
     (by decide)).2 0 (by decide)⟩

end Frames
